import Mathlib

/-!
Shallow embedding of the sale-posting and aggregation core of the barber
POS application (Electron main process, `pos/createSale`,
`dashboard/metrics`, `reports/sales` IPC handlers backed by a SQLite
store via better-sqlite3).

Modelling conventions:
* Money values (REAL columns, JS numbers) are embedded as `ℚ`;
  quantities (INTEGER columns) as `ℤ`; row ids as `ℤ`.
* SQLite TEXT timestamps of the shape `YYYY-MM-DD HH:MM:SS` are embedded
  as a pair `(day, sec)` ordered lexicographically; string comparison of
  such timestamps agrees with this order, and `date(ts)` is the `day`
  component.  `date('now', '-14 day')` is the timestamp `(today - 14, 0)`
  (midnight), so the SQL string comparison `createdAt >= date('now','-14 day')`
  becomes the lexicographic comparison against `(today - 14, 0)`.
* Each table is a list of rows; `AUTOINCREMENT` of the sales table is an
  explicit `nextSaleId` counter.
* better-sqlite3 runs statements synchronously on one connection; a
  statement outside `db.transaction` autocommits immediately, and a
  thrown error inside `db.transaction` rolls back exactly the writes
  made inside the transaction callback.
-/

/-- Timestamp `(day, sec)`: calendar day number together with the second
within the day.  Lexicographic order models SQLite string comparison of
`YYYY-MM-DD HH:MM:SS` text timestamps. -/
structure Ts where
  day : ℤ
  sec : ℕ
deriving DecidableEq

/-- Lexicographic order on timestamps (Bool-valued, used in embedded SQL
WHERE clauses). -/
def Ts.leB (a b : Ts) : Bool :=
  decide (a.day < b.day) || (decide (a.day = b.day) && decide (a.sec ≤ b.sec))

/-- Lexicographic order on timestamps (Prop-valued, used in theorem
statements). -/
def Ts.le (a b : Ts) : Prop :=
  a.day < b.day ∨ (a.day = b.day ∧ a.sec ≤ b.sec)

instance : DecidableRel Ts.le := fun a b => by
  unfold Ts.le; infer_instance

/-- Row of the `products` table. -/
structure Product where
  id : ℤ
  name : String
  barcode : Option String
  price : ℚ
  cost : ℚ
  quantity : ℤ
  lowStockThreshold : ℤ
  category : Option String
  image : Option String
deriving DecidableEq

/-- Row of the `sales` table. -/
structure SaleRow where
  id : ℤ
  customerId : Option ℤ
  total : ℚ
  discount : ℚ
  tax : ℚ
  paymentMethod : String
  paidAmount : ℚ
  changeAmount : ℚ
  userId : Option ℤ
  createdAt : Ts
deriving DecidableEq

/-- Row of the `sale_items` table. -/
structure SaleItemRow where
  saleId : ℤ
  productId : ℤ
  quantity : ℤ
  price : ℚ
deriving DecidableEq

/-- Row of the `users` table (the columns the reports join reads). -/
structure UserRow where
  id : ℤ
  username : String
deriving DecidableEq

/-- The embedded SQLite store: the tables touched by the sale-posting and
aggregation handlers, plus the AUTOINCREMENT counter of `sales`. -/
structure Store where
  products : List Product
  sales : List SaleRow
  sale_items : List SaleItemRow
  users : List UserRow
  nextSaleId : ℤ
deriving DecidableEq

/-- One line of the cart passed to `pos/createSale`
(`item.id`, `item.price`, `item.quantity` are the fields the handler reads). -/
structure CartItem where
  id : ℤ
  price : ℚ
  quantity : ℤ
deriving DecidableEq

/-- The `pos/createSale` payload
`{ items, discount, taxRate, paymentMethod, paidAmount, customerId, userId }`. -/
structure SalePayload where
  items : List CartItem
  discount : ℚ
  taxRate : ℚ
  paymentMethod : String
  paidAmount : ℚ
  customerId : Option ℤ
  userId : Option ℤ
deriving DecidableEq

/-- The value returned by `pos/createSale`:
`{ saleId, total, taxValue, discountValue, changeAmount }`. -/
structure SaleResult where
  saleId : ℤ
  total : ℚ
  taxValue : ℚ
  discountValue : ℚ
  changeAmount : ℚ
deriving DecidableEq

/-- Outcome of one `pos/createSale` invocation: the handler either returns
the result object, or a thrown storage error propagates to the caller. -/
inductive PostOutcome where
  | committed (r : SaleResult)
  | failed
deriving DecidableEq

/-- JS `a || b` on numbers: `a` when `a` is truthy (nonzero), else `b`.
Used for `discount || 0`. -/
def jsOr (a b : ℚ) : ℚ := if a = 0 then b else a

/-- JS `x || null` on a nullable id: `null` when `x` is `null` or `0`.
Used for `customerId || null`. -/
def jsOrNull (x : Option ℤ) : Option ℤ :=
  match x with
  | none => none
  | some v => if v = 0 then none else some v

/-- The handler's `items.reduce((acc, item) => acc + item.price * item.quantity, 0)`. -/
def cartSubtotal (items : List CartItem) : ℚ :=
  items.foldl (fun acc it => acc + it.price * (it.quantity : ℚ)) 0

/-- Total quantity the cart posts against product id `i`
(several cart lines may carry the same id). -/
def cartQty (items : List CartItem) (i : ℤ) : ℤ :=
  ((items.filter fun it => decide (it.id = i)).map CartItem.quantity).sum

/-- One execution of `UPDATE products SET quantity = quantity - ? WHERE id = ?`:
every row whose id matches is decremented. -/
def updateStockOne (pid qty : ℤ) (ps : List Product) : List Product :=
  ps.map fun p => if p.id = pid then { p with quantity := p.quantity - qty } else p

/-- The body of the `db.transaction((saleItems) => ...)` callback: for each
cart line, insert a `sale_items` row and decrement the product's stock. -/
def applyTxn (saleId : ℤ) (items : List CartItem) (st : Store) : Store :=
  items.foldl
    (fun s it =>
      { s with
        sale_items := s.sale_items ++ [⟨saleId, it.id, it.quantity, it.price⟩],
        products := updateStockOne it.id it.quantity s.products })
    st

/-- Failure injection for the commit path: `some k` forces the `k`-th item
write inside the transaction to throw (a storage error or constraint
violation), in which case better-sqlite3 rolls back every write made inside
the transaction callback; `none` (or an index past the cart) is a clean run. -/
def txnFails (failAt : Option ℕ) (items : List CartItem) : Bool :=
  match failAt with
  | some k => k < items.length
  | none => false

/-- The `pos/createSale` handler.  Faithful translation of the source:
the totals are computed, then `insertSale.run(...)` inserts the sale header
OUTSIDE the transaction (it autocommits at once), and only the per-item
inserts and stock updates run inside `db.transaction`.  `now` stands for the
`CURRENT_TIMESTAMP` default filling `createdAt`. -/
def createSale (st : Store) (p : SalePayload) (now : Ts) (failAt : Option ℕ) :
    Store × PostOutcome :=
  let subtotal := cartSubtotal p.items
  let discountValue := jsOr p.discount 0
  let taxValue := (subtotal - discountValue) * p.taxRate
  let total := subtotal - discountValue + taxValue
  let changeAmount := p.paidAmount - total
  let saleId := st.nextSaleId
  let stHeader : Store :=
    { st with
      sales := st.sales ++
        [{ id := saleId, customerId := jsOrNull p.customerId, total := total,
           discount := discountValue, tax := taxValue,
           paymentMethod := p.paymentMethod, paidAmount := p.paidAmount,
           changeAmount := changeAmount, userId := p.userId, createdAt := now }],
      nextSaleId := st.nextSaleId + 1 }
  if txnFails failAt p.items then
    (stHeader, PostOutcome.failed)
  else
    (applyTxn saleId p.items stHeader,
     PostOutcome.committed ⟨saleId, total, taxValue, discountValue, changeAmount⟩)

/-!
SQLite compares TEXT under the default BINARY collation: memcmp on the
UTF-8 bytes, which on well-formed UTF-8 coincides with code-point order.
The dashboard query `GROUP BY p.name ... ORDER BY qty DESC LIMIT 5`
therefore forms one group per distinct name and emits the groups in
ascending code-point name order; the outer `ORDER BY qty DESC` sort is
stable over that sequence, so groups of equal quantity stay in ascending
name order.  This deterministic outcome is captured below by sorting with
the lexicographic order `topOrder` (quantity descending, then name
ascending), which on name-distinct entries coincides with a stable
quantity sort of name-ascending input.
-/

/-- Strict code-point order on character lists (SQLite BINARY collation). -/
def strLtCh : List Char → List Char → Bool
  | _, [] => false
  | [], _ :: _ => true
  | a :: as, b :: bs =>
    if a.toNat < b.toNat then true
    else if b.toNat < a.toNat then false
    else strLtCh as bs

/-- Name order used by the embedded SQL: `s ≤ t` iff `t` is not strictly
below `s` in code-point order. -/
def nameLe (s t : String) : Prop := strLtCh t.data s.data = false

instance : DecidableRel nameLe := fun s t => by
  unfold nameLe; infer_instance

theorem strLtCh_asymm : ∀ a b : List Char, strLtCh a b = true → strLtCh b a = false := by
  intro a
  induction a with
  | nil =>
    intro b h
    cases b with
    | nil => simp [strLtCh] at h
    | cons y bs => simp [strLtCh]
  | cons x as ih =>
    intro b h
    cases b with
    | nil => simp [strLtCh] at h
    | cons y bs =>
      rcases Nat.lt_trichotomy x.toNat y.toNat with hlt | heq | hgt
      · have h1 : ¬ y.toNat < x.toNat := by omega
        simp [strLtCh, h1, hlt]
      · have h1 : ¬ x.toNat < y.toNat := by omega
        have h2 : ¬ y.toNat < x.toNat := by omega
        simp only [strLtCh, if_neg h1, if_neg h2] at h
        simp only [strLtCh, if_neg h2, if_neg h1]
        exact ih bs h
      · have h1 : ¬ x.toNat < y.toNat := by omega
        simp [strLtCh, h1, hgt] at h

theorem strLtCh_cotrans : ∀ a c b : List Char, strLtCh a c = true →
    strLtCh a b = true ∨ strLtCh b c = true := by
  intro a
  induction a with
  | nil =>
    intro c b h
    cases c with
    | nil => simp [strLtCh] at h
    | cons y cs =>
      cases b with
      | nil => right; simp [strLtCh]
      | cons z bs => left; simp [strLtCh]
  | cons x as ih =>
    intro c b h
    cases c with
    | nil => simp [strLtCh] at h
    | cons y cs =>
      cases b with
      | nil => right; simp [strLtCh]
      | cons z bs =>
        have hxy : x.toNat < y.toNat ∨ (x.toNat = y.toNat ∧ strLtCh as cs = true) := by
          rcases Nat.lt_trichotomy x.toNat y.toNat with hlt | heq | hgt
          · exact Or.inl hlt
          · have h1 : ¬ x.toNat < y.toNat := by omega
            have h2 : ¬ y.toNat < x.toNat := by omega
            simp only [strLtCh, if_neg h1, if_neg h2] at h
            exact Or.inr ⟨heq, h⟩
          · have h1 : ¬ x.toNat < y.toNat := by omega
            simp [strLtCh, h1, hgt] at h
        rcases Nat.lt_trichotomy x.toNat z.toNat with hlt | heq | hgt
        · left; simp [strLtCh, hlt]
        · rcases hxy with hxy | ⟨hxy, hrec⟩
          · right
            have hzy : z.toNat < y.toNat := by omega
            simp [strLtCh, hzy]
          · rcases ih cs bs hrec with hl | hr
            · left
              have h1 : ¬ x.toNat < z.toNat := by omega
              have h2 : ¬ z.toNat < x.toNat := by omega
              simp [strLtCh, h1, h2, hl]
            · right
              have h1 : ¬ z.toNat < y.toNat := by omega
              have h2 : ¬ y.toNat < z.toNat := by omega
              simp [strLtCh, h1, h2, hr]
        · rcases hxy with hxy | ⟨hxy, _⟩
          · right
            have hzy : z.toNat < y.toNat := by omega
            simp [strLtCh, hzy]
          · right
            have hzy : z.toNat < y.toNat := by omega
            simp [strLtCh, hzy]

instance : IsTotal String nameLe := by
  constructor
  intro s t
  by_cases h : strLtCh t.data s.data = false
  · exact Or.inl h
  · right
    have h1 : strLtCh t.data s.data = true := by
      cases hh : strLtCh t.data s.data
      · exact absurd hh h
      · rfl
    exact strLtCh_asymm _ _ h1

instance : IsTrans String nameLe := by
  constructor
  intro s t u h1 h2
  unfold nameLe at h1 h2 ⊢
  cases hh : strLtCh u.data s.data
  · rfl
  · rcases strLtCh_cotrans u.data s.data t.data hh with hl | hr
    · rw [h2] at hl; exact absurd hl (by simp)
    · rw [h1] at hr; exact absurd hr (by simp)

/-- The dashboard join `FROM sale_items si JOIN products p ON p.id = si.productId`:
each sale item paired with the (unique, `id` is the primary key) matching
product, yielding the columns the query reads, `(p.name, si.quantity)`.
Items whose product row was deleted drop out (inner join). -/
def joinedItems (st : Store) : List (String × ℤ) :=
  st.sale_items.filterMap fun si =>
    (st.products.find? fun p => decide (p.id = si.productId)).map fun p =>
      (p.name, si.quantity)

/-- Summed sold quantity of the name-group `n`: `SUM(si.quantity)` of the
dashboard query's group for name `n`. -/
def soldByName (st : Store) (n : String) : ℤ :=
  (((joinedItems st).filter fun x => decide (x.1 = n)).map Prod.snd).sum

/-- The distinct group keys of `GROUP BY p.name`, in the ascending name
order in which the grouping emits them. -/
def nameKeys (st : Store) : List String :=
  List.insertionSort nameLe ((joinedItems st).map Prod.fst).dedup

/-- Order of `ORDER BY qty DESC` over the name-ascending group sequence:
quantity descending, equal quantities resolved by name ascending (see the
collation note above). -/
def topOrder (a b : String × ℤ) : Prop :=
  b.2 < a.2 ∨ (a.2 = b.2 ∧ nameLe a.1 b.1)

instance : DecidableRel topOrder := fun a b => by
  unfold topOrder; infer_instance

instance : IsTotal (String × ℤ) topOrder := by
  constructor
  intro a b
  rcases Int.lt_trichotomy a.2 b.2 with hlt | heq | hgt
  · exact Or.inr (Or.inl hlt)
  · rcases IsTotal.total (r := nameLe) a.1 b.1 with h | h
    · exact Or.inl (Or.inr ⟨heq, h⟩)
    · exact Or.inr (Or.inr ⟨heq.symm, h⟩)
  · exact Or.inl (Or.inl hgt)

instance : IsTrans (String × ℤ) topOrder := by
  constructor
  intro a b c hab hbc
  rcases hab with h1 | ⟨h1, h1n⟩
  · rcases hbc with h2 | ⟨h2, _⟩
    · exact Or.inl (lt_trans h2 h1)
    · exact Or.inl (h2 ▸ h1)
  · rcases hbc with h2 | ⟨h2, h2n⟩
    · exact Or.inl (h1 ▸ h2)
    · exact Or.inr ⟨h1.trans h2, Trans.trans h1n h2n⟩

/-- The `topProducts` query of `dashboard/metrics`:
`SELECT p.name, SUM(si.quantity) as qty FROM sale_items si JOIN products p
ON p.id = si.productId GROUP BY p.name ORDER BY qty DESC LIMIT 5`. -/
def topProducts (st : Store) : List (String × ℤ) :=
  (List.insertionSort topOrder ((nameKeys st).map fun n => (n, soldByName st n))).take 5

/-- Rows passing `WHERE createdAt >= date('now', '-14 day')`: the string
comparison of the TEXT timestamp against the midnight timestamp of day
`today - 14`. -/
def trendFilter (st : Store) (today : ℤ) : List SaleRow :=
  st.sales.filter fun s => Ts.leB ⟨today - 14, 0⟩ s.createdAt

/-- Per-day `SUM(total)` over a row list. -/
def daySum (rows : List SaleRow) (d : ℤ) : ℚ :=
  ((rows.filter fun s => decide (s.createdAt.day = d)).map SaleRow.total).sum

/-- The `salesTrend` query of `dashboard/metrics`:
`SELECT strftime('%Y-%m-%d', createdAt) as day, SUM(total) as total FROM sales
WHERE createdAt >= date('now', '-14 day') GROUP BY day ORDER BY day`. -/
def salesTrend (st : Store) (today : ℤ) : List (ℤ × ℚ) :=
  (List.insertionSort (fun a b : ℤ => a ≤ b)
      ((trendFilter st today).map fun s => s.createdAt.day).dedup).map
    fun d => (d, daySum (trendFilter st today) d)

/-- Rows passing the `reports/sales` WHERE clause:
`date(createdAt) BETWEEN date(?) AND date(?)`, plus `AND s.userId = ?`
appended only when the supplied `userId` is JS-truthy (present and
nonzero).  An SQL comparison against a NULL `userId` is not true. -/
def reportRows (st : Store) (fromD toD : ℤ) (uid : Option ℤ) : List SaleRow :=
  st.sales.filter fun s =>
    decide (fromD ≤ s.createdAt.day) && decide (s.createdAt.day ≤ toD) &&
      (match uid with
       | some u =>
         if u = 0 then true
         else
           match s.userId with
           | some v => decide (v = u)
           | none => false
       | none => true)

/-- Row shape of `reports/sales`: `SELECT s.*, u.username`. -/
structure ReportRow where
  sale : SaleRow
  username : Option String
deriving DecidableEq

/-- The `LEFT JOIN users u ON u.id = s.userId` username column: the unique
(`id` is the primary key) matching user's name, or NULL. -/
def lookupUsername (st : Store) (uid : Option ℤ) : Option String :=
  match uid with
  | some v => (st.users.find? fun u => decide (u.id = v)).map UserRow.username
  | none => none

/-- Order of `ORDER BY datetime(createdAt) DESC`. -/
def reportOrder (a b : SaleRow) : Prop := Ts.le b.createdAt a.createdAt

instance : DecidableRel reportOrder := fun a b => by
  unfold reportOrder; infer_instance

theorem Ts.le_total (a b : Ts) : Ts.le a b ∨ Ts.le b a := by
  unfold Ts.le; omega

theorem Ts.le_trans {a b c : Ts} (h1 : Ts.le a b) (h2 : Ts.le b c) : Ts.le a c := by
  unfold Ts.le at h1 h2 ⊢; omega

instance : IsTotal SaleRow reportOrder :=
  ⟨fun a b => (Ts.le_total b.createdAt a.createdAt).imp id id⟩

instance : IsTrans SaleRow reportOrder :=
  ⟨fun _ _ _ h1 h2 => Ts.le_trans h2 h1⟩

/-- The `reports/sales` handler: filter, sort descending by timestamp,
join each row with the posting user's username. -/
def salesReport (st : Store) (fromD toD : ℤ) (uid : Option ℤ) : List ReportRow :=
  (List.insertionSort reportOrder (reportRows st fromD toD uid)).map
    fun s => ⟨s, lookupUsername st s.userId⟩

/-!
Structural lemmas about the commit path of `pos/createSale`.
-/

/-- The computed result object of a clean run: `saleId` is the sales
AUTOINCREMENT value, and the totals follow the handler's arithmetic. -/
def postedResult (st : Store) (p : SalePayload) : SaleResult :=
  let subtotal := cartSubtotal p.items
  let discountValue := jsOr p.discount 0
  let taxValue := (subtotal - discountValue) * p.taxRate
  let total := subtotal - discountValue + taxValue
  ⟨st.nextSaleId, total, taxValue, discountValue, p.paidAmount - total⟩

/-- The sale header row the handler inserts (outside the transaction). -/
def postedHeader (st : Store) (p : SalePayload) (now : Ts) : SaleRow :=
  { id := st.nextSaleId, customerId := jsOrNull p.customerId,
    total := (postedResult st p).total, discount := jsOr p.discount 0,
    tax := (postedResult st p).taxValue, paymentMethod := p.paymentMethod,
    paidAmount := p.paidAmount, changeAmount := (postedResult st p).changeAmount,
    userId := p.userId, createdAt := now }

theorem createSale_none (st : Store) (p : SalePayload) (now : Ts) :
    createSale st p now none =
      (applyTxn st.nextSaleId p.items
        { st with sales := st.sales ++ [postedHeader st p now],
                  nextSaleId := st.nextSaleId + 1 },
       PostOutcome.committed (postedResult st p)) := rfl

theorem createSale_fail (st : Store) (p : SalePayload) (now : Ts) (k : ℕ)
    (h : k < p.items.length) :
    createSale st p now (some k) =
      ({ st with sales := st.sales ++ [postedHeader st p now],
                 nextSaleId := st.nextSaleId + 1 },
       PostOutcome.failed) := by
  simp only [createSale, txnFails, postedHeader, postedResult]
  rw [if_pos (by exact decide_eq_true h)]

theorem jsOr_zero (d : ℚ) : jsOr d 0 = d := by
  unfold jsOr
  split <;> simp_all

theorem cartSubtotal_eq_sum (items : List CartItem) :
    cartSubtotal items = (items.map fun it => it.price * (it.quantity : ℚ)).sum := by
  have general : ∀ (l : List CartItem) (c : ℚ),
      l.foldl (fun acc it => acc + it.price * (it.quantity : ℚ)) c =
        c + (l.map fun it => it.price * (it.quantity : ℚ)).sum := by
    intro l
    induction l with
    | nil => intro c; simp
    | cons it l ih =>
      intro c
      simp only [List.foldl_cons, List.map_cons, List.sum_cons, ih]
      ring
  simpa using general items 0

theorem cartQty_cons (it : CartItem) (items : List CartItem) (i : ℤ) :
    cartQty (it :: items) i =
      (if it.id = i then it.quantity else 0) + cartQty items i := by
  simp only [cartQty, List.filter_cons]
  split <;> simp_all

theorem applyTxn_products (saleId : ℤ) (items : List CartItem) (st : Store) :
    (applyTxn saleId items st).products =
      st.products.map fun p => { p with quantity := p.quantity - cartQty items p.id } := by
  induction items generalizing st with
  | nil =>
    simp only [applyTxn, List.foldl_nil]
    have h0 : st.products.map (fun p => { p with quantity := p.quantity - cartQty [] p.id })
        = st.products.map id :=
      List.map_congr_left fun p _ => by simp [cartQty]
    rw [h0, List.map_id]
  | cons it items ih =>
    have point : ∀ p : Product,
        (fun q : Product => { q with quantity := q.quantity - cartQty items q.id })
            (if p.id = it.id then { p with quantity := p.quantity - it.quantity } else p)
          = { p with quantity := p.quantity - cartQty (it :: items) p.id } := by
      intro p
      by_cases h : p.id = it.id
      · rw [if_pos h]
        show ({ p with quantity := p.quantity - it.quantity - cartQty items p.id } : Product) = _
        rw [cartQty_cons, if_pos h.symm, sub_sub]
      · rw [if_neg h]
        show ({ p with quantity := p.quantity - cartQty items p.id } : Product) = _
        rw [cartQty_cons, if_neg (fun hh => h hh.symm), zero_add]
    simp only [applyTxn, List.foldl_cons] at ih ⊢
    rw [ih]
    simp only [updateStockOne, List.map_map]
    apply List.map_congr_left
    intro p _
    simp only [Function.comp_apply]
    exact point p

theorem applyTxn_sale_items (saleId : ℤ) (items : List CartItem) (st : Store) :
    (applyTxn saleId items st).sale_items =
      st.sale_items ++ items.map fun it => ⟨saleId, it.id, it.quantity, it.price⟩ := by
  induction items generalizing st with
  | nil => simp [applyTxn]
  | cons it items ih =>
    simp only [applyTxn, List.foldl_cons] at ih ⊢
    rw [ih]
    simp

theorem applyTxn_sales (saleId : ℤ) (items : List CartItem) (st : Store) :
    (applyTxn saleId items st).sales = st.sales := by
  induction items generalizing st with
  | nil => simp [applyTxn]
  | cons it items ih =>
    simp only [applyTxn, List.foldl_cons] at ih ⊢
    rw [ih]

theorem applyTxn_users (saleId : ℤ) (items : List CartItem) (st : Store) :
    (applyTxn saleId items st).users = st.users := by
  induction items generalizing st with
  | nil => simp [applyTxn]
  | cons it items ih =>
    simp only [applyTxn, List.foldl_cons] at ih ⊢
    rw [ih]

/-!
Concrete store and payloads used in counterexamples and failing-input
evaluations.
-/

/-- Small concrete store: two products, one user, no recorded sales. -/
def demoStore : Store :=
  { products :=
      [ { id := 1, name := "haircut", barcode := some "1110001", price := 35, cost := 10,
          quantity := 20, lowStockThreshold := 5, category := some "services", image := none },
        { id := 3, name := "beardkit", barcode := some "1110003", price := 60, cost := 30,
          quantity := 10, lowStockThreshold := 3, category := some "products", image := none } ],
    sales := [], sale_items := [], users := [⟨1, "admin"⟩], nextSaleId := 1 }

/-- A fixed posting time. -/
def tNow : Ts := ⟨100, 36000⟩

/-- Cart of the spec's worked example: two lines, discount 5, tax rate 0.15,
paid 120. -/
def examplePayload : SalePayload :=
  { items := [⟨1, 35, 1⟩, ⟨3, 60, 1⟩], discount := 5, taxRate := 15/100,
    paymentMethod := "cash", paidAmount := 120, customerId := none, userId := some 1 }

/-- Empty-cart payload. -/
def emptyCartPayload : SalePayload :=
  { items := [], discount := 0, taxRate := 15/100,
    paymentMethod := "cash", paidAmount := 0, customerId := none, userId := some 1 }

/-- Payload whose discount (20) exceeds the cart subtotal (10). -/
def bigDiscountPayload : SalePayload :=
  { items := [⟨1, 10, 1⟩], discount := 20, taxRate := 15/100,
    paymentMethod := "cash", paidAmount := 0, customerId := none, userId := some 1 }

/-- C1.  The code, evaluated at a failing input: posting the worked-example
cart with the write of the SECOND item failing inside `db.transaction`
(for instance a NOT NULL constraint violation on that line).  The item rows
and stock updates roll back, but the Sale header — inserted OUTSIDE the
transaction and autocommitted — persists: the store is observed with a sale
header recorded and all items/stock decrements missing, exactly what the
claim rules out. -/
theorem c1_header_survives_failed_commit :
    (createSale demoStore examplePayload tNow (some 1)).2 = PostOutcome.failed ∧
    (createSale demoStore examplePayload tNow (some 1)).1.sales.length
        = demoStore.sales.length + 1 ∧
    (createSale demoStore examplePayload tNow (some 1)).1.sale_items
        = demoStore.sale_items ∧
    (createSale demoStore examplePayload tNow (some 1)).1.products
        = demoStore.products := by
  rw [createSale_fail demoStore examplePayload tNow 1 (by decide)]
  refine ⟨rfl, by simp, rfl, rfl⟩

/-- C2, counterexample.  Posting an empty cart is NOT rejected: `pos/createSale`
performs no validation at all, commits a Sale header (subtotal 0) and returns
a normal success result, refuting both "returns a ValidationError" and
"leaves the store completely unchanged". -/
theorem c2_empty_cart_not_rejected :
    (createSale demoStore emptyCartPayload tNow none).2
        = PostOutcome.committed ⟨1, 0, 0, 0, 0⟩ ∧
    (createSale demoStore emptyCartPayload tNow none).1.sales.length
        = demoStore.sales.length + 1 := by
  rw [createSale_none]
  constructor
  · have hres : postedResult demoStore emptyCartPayload = ⟨1, 0, 0, 0, 0⟩ := by
      simp [postedResult, emptyCartPayload, cartSubtotal, jsOr, demoStore]
    rw [hres]
  · simp [applyTxn_sales]

/-- C2, amended.  The handler validates nothing: for EVERY payload (empty
cart, nonpositive quantities and unknown product ids included) and every
store, the clean run returns a success result and appends exactly one Sale
header row — no `ValidationError` exists in the posting path. -/
theorem c2_no_validation (st : Store) (p : SalePayload) (now : Ts) :
    (createSale st p now none).2 = PostOutcome.committed (postedResult st p) ∧
    (createSale st p now none).1.sales = st.sales ++ [postedHeader st p now] := by
  rw [createSale_none]
  exact ⟨rfl, by simp [applyTxn_sales]⟩

/-- C3, counterexample.  With subtotal 10, discount 20 and tax rate 0.15 the
handler records tax `(10 - 20) * 0.15 = -3/2`, while the claim's formula
`max(0, subtotal - discount) * taxRate` yields `0`: the taxable base is not
clamped and the recorded tax is negative. -/
theorem c3_tax_not_clamped :
    (createSale demoStore bigDiscountPayload tNow none).2
        = PostOutcome.committed ⟨1, -(23/2), -(3/2), 20, 23/2⟩ ∧
    ¬ ((-(3/2) : ℚ)
        = max 0 (cartSubtotal bigDiscountPayload.items - bigDiscountPayload.discount)
            * bigDiscountPayload.taxRate) := by
  constructor
  · rw [createSale_none]
    have hres : postedResult demoStore bigDiscountPayload = ⟨1, -(23/2), -(3/2), 20, 23/2⟩ := by
      simp only [postedResult, bigDiscountPayload, cartSubtotal, jsOr, demoStore,
        List.foldl_cons, List.foldl_nil]
      norm_num
    rw [hres]
  · simp only [bigDiscountPayload, cartSubtotal, List.foldl_cons, List.foldl_nil]
    norm_num

/-- C3, amended.  The tax recorded and returned by `pos/createSale` is
`(subtotal - discount) * taxRate` with NO clamping of the taxable base:
when the discount exceeds the subtotal and the rate is positive, the tax is
negative.  The recorded header row carries the same value. -/
theorem c3_tax_formula (st : Store) (p : SalePayload) (now : Ts) :
    ∃ r : SaleResult, (createSale st p now none).2 = PostOutcome.committed r ∧
      r.taxValue
        = ((p.items.map fun it => it.price * (it.quantity : ℚ)).sum - jsOr p.discount 0)
            * p.taxRate ∧
      ∃ row : SaleRow, (createSale st p now none).1.sales.getLast? = some row ∧
        row.tax = r.taxValue := by
  rw [createSale_none]
  refine ⟨postedResult st p, rfl, ?_, postedHeader st p now, ?_, rfl⟩
  · show (cartSubtotal p.items - jsOr p.discount 0) * p.taxRate = _
    rw [cartSubtotal_eq_sum]
  · rw [applyTxn_sales]
    simp

/-- C4.  For every cart, discount, tax rate and paid amount, the clean run
returns and records `total = (subtotal - discount) + tax` and
`changeAmount = paidAmount - total` where `subtotal = Σ price * quantity`;
the outcome is a committed success for every input, so in particular a
negative change (paid < total) is returned, never an error. -/
theorem c4_total_and_change (st : Store) (p : SalePayload) (now : Ts) :
    ∃ r : SaleResult, (createSale st p now none).2 = PostOutcome.committed r ∧
      r.total
        = ((p.items.map fun it => it.price * (it.quantity : ℚ)).sum - jsOr p.discount 0)
            + r.taxValue ∧
      r.changeAmount = p.paidAmount - r.total ∧
      ∃ row : SaleRow, (createSale st p now none).1.sales.getLast? = some row ∧
        row.total = r.total ∧ row.changeAmount = r.changeAmount := by
  rw [createSale_none]
  refine ⟨postedResult st p, rfl, ?_, rfl, postedHeader st p now, ?_, rfl, rfl⟩
  · show cartSubtotal p.items - jsOr p.discount 0 + (postedResult st p).taxValue
        = (p.items.map fun it => it.price * (it.quantity : ℚ)).sum - jsOr p.discount 0
          + (postedResult st p).taxValue
    rw [cartSubtotal_eq_sum]
  · rw [applyTxn_sales]
    simp

/-- C5.  Frame property of a successful post: every product's stock drops by
exactly the total quantity the cart posts against its id, and a product
referenced by no cart line is completely unchanged (all fields). -/
theorem c5_stock_frame (st : Store) (p : SalePayload) (now : Ts) :
    (createSale st p now none).2 = PostOutcome.committed (postedResult st p) ∧
    (createSale st p now none).1.products
        = st.products.map (fun q => { q with quantity := q.quantity - cartQty p.items q.id }) ∧
    ∀ q ∈ st.products, (∀ it ∈ p.items, it.id ≠ q.id) →
      q ∈ (createSale st p now none).1.products := by
  rw [createSale_none]
  refine ⟨rfl, applyTxn_products _ _ _, ?_⟩
  intro q hq hnoref
  rw [applyTxn_products]
  have hzero : cartQty p.items q.id = 0 := by
    have hfil : p.items.filter (fun it => decide (it.id = q.id)) = [] := by
      rw [List.filter_eq_nil_iff]
      intro it hit
      simpa using hnoref it hit
    rw [cartQty, hfil]
    rfl
  have hfix : ({ q with quantity := q.quantity - cartQty p.items q.id } : Product) = q := by
    rw [hzero]
    simp
  exact hfix ▸ List.mem_map_of_mem _ hq

/-- C6.  Two posts, serialized by the synchronous store in either order,
never lose a stock decrement: after both commit, every product's quantity
has dropped by the SUM of the quantities the two carts post against it —
the decrement `UPDATE products SET quantity = quantity - ?` is an atomic
read-modify-write inside each sale's transaction. -/
theorem c6_concurrent_decrements (st : Store) (p1 p2 : SalePayload) (n1 n2 : Ts) :
    (createSale (createSale st p1 n1 none).1 p2 n2 none).1.products
        = st.products.map
            (fun q => { q with
              quantity := q.quantity - (cartQty p1.items q.id + cartQty p2.items q.id) }) ∧
    (createSale (createSale st p2 n2 none).1 p1 n1 none).1.products
        = st.products.map
            (fun q => { q with
              quantity := q.quantity - (cartQty p1.items q.id + cartQty p2.items q.id) }) := by
  have key : ∀ (a b : SalePayload) (na nb : Ts),
      (createSale (createSale st a na none).1 b nb none).1.products
        = st.products.map
            (fun q => { q with
              quantity := q.quantity - (cartQty a.items q.id + cartQty b.items q.id) }) := by
    intro a b na nb
    rw [createSale_none, createSale_none]
    rw [applyTxn_products]
    show (applyTxn _ a.items _).products.map _ = _
    rw [applyTxn_products]
    show (st.products.map _).map _ = _
    rw [List.map_map]
    apply List.map_congr_left
    intro q _
    simp only [Function.comp_apply]
    show ({ q with quantity := q.quantity - cartQty a.items q.id - cartQty b.items q.id } : Product) = _
    rw [sub_sub]
  refine ⟨key p1 p2 n1 n2, ?_⟩
  rw [key p2 p1 n2 n1]
  apply List.map_congr_left
  intro q _
  rw [add_comm]

/-!
Claims about the dashboard `topProducts` aggregation.
-/

theorem topProducts_eq (st : Store) :
    topProducts st
      = (List.insertionSort topOrder
          ((nameKeys st).map fun n => (n, soldByName st n))).take 5 := rfl

theorem nameKeys_nodup (st : Store) : (nameKeys st).Nodup :=
  (List.perm_insertionSort nameLe _).symm.nodup
    (List.nodup_dedup ((joinedItems st).map Prod.fst))

theorem mem_nameKeys (st : Store) (n : String) :
    n ∈ nameKeys st ↔ n ∈ (joinedItems st).map Prod.fst := by
  unfold nameKeys
  rw [List.mem_insertionSort, List.mem_dedup]

theorem groups_map_fst (st : Store) :
    ((nameKeys st).map fun n => (n, soldByName st n)).map Prod.fst = nameKeys st := by
  rw [List.map_map]
  exact List.map_id _

/-- C10.  The dashboard aggregates `topProducts` by product NAME
(`GROUP BY p.name`), not by product id: the result never carries two
entries with the same name, and every entry's quantity is the sum of the
sold quantities of ALL products bearing that name — two distinct product
rows with the same name are merged into a single entry. -/
theorem c10_topProducts_grouped_by_name (st : Store) :
    ((topProducts st).map Prod.fst).Nodup ∧
    ∀ e ∈ topProducts st, e.2 = soldByName st e.1 := by
  constructor
  · rw [topProducts_eq, List.map_take]
    have h2 : List.Sublist
        (((List.insertionSort topOrder
            ((nameKeys st).map fun n => (n, soldByName st n))).map Prod.fst).take 5)
        ((List.insertionSort topOrder
            ((nameKeys st).map fun n => (n, soldByName st n))).map Prod.fst) :=
      List.take_sublist _ _
    have hperm : List.Perm
        ((List.insertionSort topOrder
            ((nameKeys st).map fun n => (n, soldByName st n))).map Prod.fst)
        (nameKeys st) := by
      have := (List.perm_insertionSort topOrder
        ((nameKeys st).map fun n => (n, soldByName st n))).map Prod.fst
      rwa [groups_map_fst] at this
    exact (hperm.symm.nodup (nameKeys_nodup st)).sublist h2
  · intro e he
    rw [topProducts_eq] at he
    have h1 := (List.take_sublist 5 _).subset he
    rw [List.mem_insertionSort] at h1
    rcases List.mem_map.mp h1 with ⟨n, _, hne⟩
    subst hne
    rfl

/-- C7, amended.  `topProducts` is the top five NAME-groups (same-named
products merged, see C10): its length is five capped by the number of
groups, it is sorted by summed quantity descending with equal quantities
resolved by name ascending, each entry is a name-group carrying that
group's summed quantity, and every group left out ranks at or below every
entry included. -/
theorem c7_top_five_name_groups (st : Store) :
    (topProducts st).length = min 5 (nameKeys st).length ∧
    List.Sorted topOrder (topProducts st) ∧
    (∀ e ∈ topProducts st,
      e.1 ∈ (joinedItems st).map Prod.fst ∧ e.2 = soldByName st e.1) ∧
    ∀ n ∈ (joinedItems st).map Prod.fst, (n, soldByName st n) ∉ topProducts st →
      ∀ e ∈ topProducts st, topOrder e (n, soldByName st n) := by
  refine ⟨?_, ?_, ?_, ?_⟩
  · rw [topProducts_eq, List.length_take, List.length_insertionSort, List.length_map]
  · rw [topProducts_eq]
    exact (List.sorted_insertionSort topOrder _).sublist (List.take_sublist _ _)
  · intro e he
    rw [topProducts_eq] at he
    have h1 := (List.take_sublist 5 _).subset he
    rw [List.mem_insertionSort] at h1
    rcases List.mem_map.mp h1 with ⟨n, hn, hne⟩
    subst hne
    exact ⟨(mem_nameKeys st n).mp hn, rfl⟩
  · intro n hn hnotin e he
    have hg : (n, soldByName st n) ∈ (nameKeys st).map fun m => (m, soldByName st m) :=
      List.mem_map_of_mem _ ((mem_nameKeys st n).mpr hn)
    have hs : (n, soldByName st n)
        ∈ List.insertionSort topOrder ((nameKeys st).map fun m => (m, soldByName st m)) :=
      (List.mem_insertionSort topOrder).mpr hg
    have hsorted : List.Pairwise topOrder
        (List.insertionSort topOrder ((nameKeys st).map fun m => (m, soldByName st m))) :=
      List.sorted_insertionSort topOrder _
    rw [← List.take_append_drop 5
        (List.insertionSort topOrder ((nameKeys st).map fun m => (m, soldByName st m))),
      List.pairwise_append] at hsorted
    have hdrop : (n, soldByName st n)
        ∈ (List.insertionSort topOrder
            ((nameKeys st).map fun m => (m, soldByName st m))).drop 5 := by
      rcases List.mem_append.mp
          ((List.take_append_drop 5 (List.insertionSort topOrder
            ((nameKeys st).map fun m => (m, soldByName st m)))) ▸ hs) with h | h
      · rw [topProducts_eq] at hnotin
        exact absurd h hnotin
      · exact h
    rw [topProducts_eq] at he
    exact hsorted.2.2 e he _ hdrop

/-- Store with two distinct product rows sharing the name "spray"
(5 units of each sold) and one "towel" product (7 sold). -/
def dupStore : Store :=
  { products :=
      [ { id := 1, name := "spray", barcode := none, price := 20, cost := 5,
          quantity := 10, lowStockThreshold := 2, category := none, image := none },
        { id := 2, name := "spray", barcode := none, price := 22, cost := 6,
          quantity := 8, lowStockThreshold := 2, category := none, image := none },
        { id := 3, name := "towel", barcode := none, price := 8, cost := 2,
          quantity := 30, lowStockThreshold := 5, category := none, image := none } ],
    sales := [],
    sale_items := [⟨1, 1, 5, 20⟩, ⟨1, 2, 5, 22⟩, ⟨1, 3, 7, 8⟩],
    users := [], nextSaleId := 2 }

/-- Per-product (by id) summed sold quantity — the ranking key the claim
describes ("products ranked by their summed SaleItem quantity"). -/
def soldById (st : Store) (pid : ℤ) : ℤ :=
  ((st.sale_items.filter fun si => decide (si.productId = pid)).map
    SaleItemRow.quantity).sum

/-- C7, counterexample.  Reading the claim's "top 5 products ranked by their
summed SaleItem quantity" entails that every entry carries some product's
per-product summed quantity.  On `dupStore` the code returns the entry
("spray", 10), yet each of the two "spray" products sold only 5 units:
the query groups by name, not by product, so the claim fails as stated. -/
theorem c7_per_product_ranking_fails :
    topProducts dupStore = [("spray", 10), ("towel", 7)] ∧
    ¬ (∀ e ∈ topProducts dupStore, ∃ p ∈ dupStore.products,
        p.name = e.1 ∧ soldById dupStore p.id = e.2) := by
  constructor
  · decide
  · decide

/-!
Claims about the dashboard `salesTrend` aggregation.
-/

theorem Ts.leB_midnight (d : ℤ) (t : Ts) : Ts.leB ⟨d, 0⟩ t = true ↔ d ≤ t.day := by
  simp only [Ts.leB, Bool.or_eq_true, Bool.and_eq_true, decide_eq_true_eq]
  omega

theorem mem_trendFilter (st : Store) (today : ℤ) (s : SaleRow) :
    s ∈ trendFilter st today ↔ s ∈ st.sales ∧ today - 14 ≤ s.createdAt.day := by
  simp only [trendFilter, List.mem_filter, Ts.leB_midnight]

theorem daySum_trendFilter (st : Store) (today d : ℤ) (hd : today - 14 ≤ d) :
    daySum (trendFilter st today) d = daySum st.sales d := by
  unfold daySum trendFilter
  rw [List.filter_filter]
  congr 1
  congr 1
  apply List.filter_congr
  intro s _
  by_cases hs : s.createdAt.day = d
  · have hw : Ts.leB ⟨today - 14, 0⟩ s.createdAt = true :=
      (Ts.leB_midnight _ _).mpr (by rw [hs]; exact hd)
    simp [hs, hw]
  · simp [hs]

/-- C8, amended.  `salesTrend` holds one entry per calendar day `d` with at
least one sale and `d ≥ today - 14` — a window reaching FIFTEEN calendar
days back (the SQL filter is `createdAt >= date('now','-14 day')`) and with
no upper bound — each entry carrying that day's summed `Sale.total`;
days without sales are absent, and the days are ascending and distinct. -/
theorem c8_trend_is_from_day_minus_14 (st : Store) (today : ℤ) :
    (∀ d t, (d, t) ∈ salesTrend st today ↔
      (today - 14 ≤ d ∧ (∃ s ∈ st.sales, s.createdAt.day = d) ∧
        t = daySum st.sales d)) ∧
    List.Sorted (fun a b : ℤ => a ≤ b) ((salesTrend st today).map Prod.fst) ∧
    ((salesTrend st today).map Prod.fst).Nodup := by
  have hfst : (salesTrend st today).map Prod.fst
      = List.insertionSort (fun a b : ℤ => a ≤ b)
          ((trendFilter st today).map fun s => s.createdAt.day).dedup := by
    unfold salesTrend
    rw [List.map_map]
    exact List.map_id _
  refine ⟨?_, ?_, ?_⟩
  · intro d t
    unfold salesTrend
    rw [List.mem_map]
    constructor
    · rintro ⟨d', hd', heq⟩
      have hdd : d' = d := congrArg Prod.fst heq
      subst hdd
      have ht : t = daySum (trendFilter st today) d' := (congrArg Prod.snd heq).symm
      rw [List.mem_insertionSort, List.mem_dedup, List.mem_map] at hd'
      rcases hd' with ⟨s, hs, hday⟩
      rcases (mem_trendFilter st today s).mp hs with ⟨hmem, hwin⟩
      have hwd : today - 14 ≤ d' := hday ▸ hwin
      exact ⟨hwd, ⟨s, hmem, hday⟩, ht.trans (daySum_trendFilter st today d' hwd)⟩
    · rintro ⟨hwd, ⟨s, hmem, hday⟩, ht⟩
      refine ⟨d, ?_, ?_⟩
      · rw [List.mem_insertionSort, List.mem_dedup, List.mem_map]
        exact ⟨s, (mem_trendFilter st today s).mpr ⟨hmem, hday ▸ hwd⟩, hday⟩
      · rw [daySum_trendFilter st today d hwd, ← ht]
  · rw [hfst]
    exact List.sorted_insertionSort _ _
  · rw [hfst]
    exact (List.perm_insertionSort _ _).symm.nodup
      (List.nodup_dedup ((trendFilter st today).map fun s => s.createdAt.day))

/-- Store with one sale exactly 14 days before `today = 100` (day 86) and
one future-dated sale (day 101). -/
def trendStore : Store :=
  { products := [],
    sales :=
      [ { id := 1, customerId := none, total := 35, discount := 0, tax := 0,
          paymentMethod := "cash", paidAmount := 35, changeAmount := 0,
          userId := some 1, createdAt := ⟨86, 43200⟩ },
        { id := 2, customerId := none, total := 50, discount := 0, tax := 0,
          paymentMethod := "cash", paidAmount := 50, changeAmount := 0,
          userId := some 1, createdAt := ⟨101, 3600⟩ } ],
    sale_items := [], users := [⟨1, "admin"⟩], nextSaleId := 3 }

/-- C8, counterexample.  With `today = 100`, the trailing 14-day window
ending at (and including) today is the day range `[87, 100]`.  The code's
trend nevertheless reports day 86 (15 days back: the filter keeps
`createdAt >= date('now','-14 day')`) and even the future day 101 (the
filter has no upper bound) — both outside the claimed window. -/
theorem c8_window_off_by_one :
    (86, (35 : ℚ)) ∈ salesTrend trendStore 100 ∧
    (101, (50 : ℚ)) ∈ salesTrend trendStore 100 ∧
    ¬ (100 - 13 ≤ (86 : ℤ) ∧ (86 : ℤ) ≤ 100) ∧
    ¬ ((101 : ℤ) ≤ 100) := by
  have h : salesTrend trendStore 100 = [(86, 35), (101, 50)] := by
    simp [salesTrend, trendFilter, trendStore, daySum, Ts.leB, List.dedup_cons_of_not_mem,
      List.insertionSort, List.orderedInsert]
  refine ⟨by rw [h]; simp, by rw [h]; simp, by omega, by omega⟩
/-!
Claims about the `reports/sales` query.
-/

/-- Filter the claim describes: `createdAt` date within `[from, to]`
inclusive and, when a user id is supplied, posted by that user (stated
without the code's JS-truthiness caveat for a supplied id of 0). -/
def specReportPred (fromD toD : ℤ) (uid : Option ℤ) (s : SaleRow) : Bool :=
  decide (fromD ≤ s.createdAt.day) && decide (s.createdAt.day ≤ toD) &&
    (match uid with
     | some u =>
       match s.userId with
       | some v => decide (v = u)
       | none => false
     | none => true)

/-- C9.  `salesReport(from, to, userId?)` returns exactly the sales whose
`createdAt` date lies in `[from, to]` inclusive — restricted to the given
user when one is supplied (a JS-truthy, i.e. nonzero, id) — ordered by
`createdAt` descending, each row joined with the posting user's username
via `LEFT JOIN users`; a range containing no sale yields the empty list,
not an error. -/
theorem c9_sales_report (st : Store) (fromD toD : ℤ) (uid : Option ℤ)
    (_hrange : fromD ≤ toD)
    (huid : ∀ u : ℤ, uid = some u → u ≠ 0) :
    List.Perm ((salesReport st fromD toD uid).map ReportRow.sale)
      (st.sales.filter (specReportPred fromD toD uid)) ∧
    List.Pairwise (fun a b => Ts.le b.sale.createdAt a.sale.createdAt)
      (salesReport st fromD toD uid) ∧
    (∀ r ∈ salesReport st fromD toD uid,
      r.username = lookupUsername st r.sale.userId) ∧
    ((∀ s ∈ st.sales, ¬ (fromD ≤ s.createdAt.day ∧ s.createdAt.day ≤ toD)) →
      salesReport st fromD toD uid = []) := by
  have hfilters : reportRows st fromD toD uid
      = st.sales.filter (specReportPred fromD toD uid) := by
    cases uid with
    | none => rfl
    | some u =>
      unfold reportRows
      apply List.filter_congr
      intro s _
      show (decide (fromD ≤ s.createdAt.day) && decide (s.createdAt.day ≤ toD) &&
          (if u = 0 then true
           else match s.userId with
                | some v => decide (v = u)
                | none => false))
        = specReportPred fromD toD (some u) s
      unfold specReportPred
      rw [if_neg (huid u rfl)]
  have hsale : (salesReport st fromD toD uid).map ReportRow.sale
      = List.insertionSort reportOrder (reportRows st fromD toD uid) := by
    unfold salesReport
    rw [List.map_map]
    exact List.map_id _
  refine ⟨?_, ?_, ?_, ?_⟩
  · rw [hsale, hfilters]
    exact List.perm_insertionSort reportOrder _
  · unfold salesReport
    rw [List.pairwise_map]
    exact List.sorted_insertionSort reportOrder _
  · intro r hr
    unfold salesReport at hr
    rcases List.mem_map.mp hr with ⟨s, _, heq⟩
    subst heq
    rfl
  · intro hempty
    have hnil : reportRows st fromD toD uid = [] := by
      unfold reportRows
      rw [List.filter_eq_nil_iff]
      intro s hs
      simp only [Bool.and_eq_true, decide_eq_true_eq]
      intro hcontra
      exact hempty s hs ⟨hcontra.1.1, hcontra.1.2⟩
    unfold salesReport
    rw [hnil]
    rfl

/-- C9, witness: the report over the day range `[50, 50]` of the demo store
(which holds no sales) with no supplied user id. -/
theorem c9_sales_report_witness :
    ((50 : ℤ) ≤ 50 ∧ ∀ u : ℤ, (none : Option ℤ) = some u → u ≠ 0) ∧
    (List.Perm ((salesReport demoStore 50 50 none).map ReportRow.sale)
        (demoStore.sales.filter (specReportPred 50 50 none)) ∧
      List.Pairwise (fun a b => Ts.le b.sale.createdAt a.sale.createdAt)
        (salesReport demoStore 50 50 none) ∧
      (∀ r ∈ salesReport demoStore 50 50 none,
        r.username = lookupUsername demoStore r.sale.userId) ∧
      ((∀ s ∈ demoStore.sales,
          ¬ ((50 : ℤ) ≤ s.createdAt.day ∧ s.createdAt.day ≤ (50 : ℤ))) →
        salesReport demoStore 50 50 none = [])) :=
  ⟨⟨le_refl 50, fun _ h => Option.noConfusion h⟩,
   c9_sales_report demoStore 50 50 none (le_refl 50) (fun _ h => Option.noConfusion h)⟩
